import Mathlib

/-!
Verification development for the obsidiantools vault engine
(link extraction, path resolution, graph construction and analytics).

The Python source is embedded shallowly:

* strings are `String` / `List Char`;
* relative filesystem paths are lists of path segments (`List String`),
  joined with a forward slash for display, as `pathlib` does on posix;
* Python dicts (which preserve insertion order) are association lists
  `List (String × α)` whose keys are unique in every state the library
  actually builds;
* the regex `WIKILINK_REGEX = (!)?\[{2}([^\]\]]+)\]{2}` together with
  `re.findall` is embedded as a left-to-right character scan
  (`scanStep` / `scanWikilinksAux`) that mirrors leftmost, non-overlapping,
  greedy matching of that particular pattern;
* fallible operations (`raise`) return `Except PyError`.

Markdown-to-HTML conversion, YAML decoding and the remaining regex
tokenizers (md links, tags, math) are external collaborators of the core
under analysis; their per-note outputs are carried as given data on each
note record (`NoteSrc`), exactly as the spec scopes them out.
-/

namespace Obsidian

/-! ## Generic helpers (Python dict/set idioms) -/

/-- Python `dict.fromkeys(xs)` key-set semantics: deduplicate while keeping
the first occurrence of each element.  `seen` accumulates what was kept. -/
def ukfAux {α : Type} [DecidableEq α] : List α → List α → List α
  | _, [] => []
  | seen, x :: xs =>
      if x ∈ seen then ukfAux seen xs else x :: ukfAux (x :: seen) xs

/-- First-occurrence-preserving deduplication (Python `list(dict.fromkeys(l))`). -/
def uniqueKeepFirst {α : Type} [DecidableEq α] (l : List α) : List α :=
  ukfAux [] l

/-- Python `dict(Counter(l))`: distinct elements in first-occurrence order,
each with its multiplicity in `l`. -/
def counterList (l : List String) : List (String × Nat) :=
  (uniqueKeepFirst l).map (fun s => (s, l.count s))

/-- Python `{**a, **b}`: keys of `a` first (values overridden by `b` where
present), then the keys of `b` that are not in `a`. -/
def pyDictMerge {α : Type} (a b : List (String × α)) : List (String × α) :=
  (a.map (fun e => (e.1, ((b.lookup e.1).getD e.2)))) ++
    (b.filter (fun e => (a.lookup e.1).isNone))

/-- Association-list read for `d[k]`; a missing key is Python's `KeyError`. -/
inductive PyError where
  | attributeError : String → PyError
  | valueError : String → PyError
  | keyError : String → PyError
deriving DecidableEq

def dictGet {α : Type} (d : List (String × α)) (k : String) : Except PyError α :=
  match d.lookup k with
  | some v => Except.ok v
  | none => Except.error (PyError.keyError k)

/-! ## Paths

A relative path is its list of segments; the last segment is the file name
(with extension).  `posixJoin` is `str(path)` / `Path.as_posix()` on a
relative path. -/

def posixJoin : List String → String
  | [] => ""
  | [s] => s
  | s :: rest => s ++ "/" ++ posixJoin rest

/-- `Path(fn)` for a forward-slash string. -/
def pathOfString (s : String) : List String :=
  s.splitOn "/"

/-- Filename (with extension) of a relative path: `Path.name`. -/
def fileNameOf (p : List String) : String :=
  (p.getLast?).getD ""

/-- `Path.parent.as_posix()` of a relative path: `"."` for a root-level file. -/
def parentPosix (p : List String) : String :=
  if p.dropLast = [] then "." else posixJoin p.dropLast

/-- `str(Path(i).as_posix())` for an allow-list entry given as segments
(`Path('')` displays as `"."`). -/
def posixOfSegs (segs : List String) : String :=
  if segs = [] then "." else posixJoin segs

/-! ## `_io.get_relpaths_matching_subdirs`

The directory walk itself (`get_relpaths_from_dir`, a glob) is the external
file-system walker; its output is the `files` argument.  An absent
`include_subdirs` (`None`) and an empty list are indistinguishable to the
Python code (`if include_subdirs:` tests truthiness), so both are the `[]`
value here. -/

def get_relpaths_matching_subdirs (files : List (List String))
    (includeSubdirs : List (List String)) (includeRoot : Bool) :
    List (List String) :=
  let finals := includeSubdirs.map posixOfSegs
  if includeSubdirs = [] then
    (if includeRoot then files
     else files.filter (fun f => parentPosix f ≠ "."))
  else
    (if includeRoot then
      files.filter (fun f => parentPosix f ∈ finals ++ ["."])
     else
      files.filter (fun f => parentPosix f ∈ finals))

/-! ## The wikilink regex scanner

`WIKILINK_REGEX = (!)?\[{2}([^\]\]]+)\]{2}` (the character class is just
"any character except `]`").  `re.findall` performs leftmost,
non-overlapping matching; for this pattern that is exactly a
left-to-right scan with the following states:

* `s0`    : no partial match in progress;
* `sBang` : just read `!` (a match may start here with the `!` consumed);
* `s1 b`  : read (`!` and) one `[`; `b` records whether the `!` is present;
* `sIn b acc` : inside the body (`acc` so far, body must stay nonempty);
* `sC b body` : read the first closing `]` after a nonempty body.

On a failed partial match the scan resumes exactly where `re` would retry:
an `!` or `[` seen at a failure point can begin a new match. -/

inductive ScanState where
  | s0 : ScanState
  | sBang : ScanState
  | s1 : Bool → ScanState
  | sIn : Bool → List Char → ScanState
  | sC : Bool → List Char → ScanState
deriving DecidableEq

def scanStep : ScanState → Char → ScanState × Option (Bool × List Char)
  | ScanState.s0, c =>
      if c = '!' then (ScanState.sBang, none)
      else if c = '[' then (ScanState.s1 false, none)
      else (ScanState.s0, none)
  | ScanState.sBang, c =>
      if c = '!' then (ScanState.sBang, none)
      else if c = '[' then (ScanState.s1 true, none)
      else (ScanState.s0, none)
  | ScanState.s1 b, c =>
      if c = '[' then (ScanState.sIn b [], none)
      else if c = '!' then (ScanState.sBang, none)
      else (ScanState.s0, none)
  | ScanState.sIn b acc, c =>
      if c = ']' then
        (if acc = [] then (ScanState.s0, none) else (ScanState.sC b acc, none))
      else (ScanState.sIn b (acc ++ [c]), none)
  | ScanState.sC b body, c =>
      if c = ']' then (ScanState.s0, some (b, body))
      else if c = '!' then (ScanState.sBang, none)
      else if c = '[' then (ScanState.s1 false, none)
      else (ScanState.s0, none)

def scanWikilinksAux : ScanState → List Char → List (Bool × List Char)
  | _, [] => []
  | st, c :: cs =>
      match scanStep st c with
      | (st2, some m) => m :: scanWikilinksAux st2 cs
      | (st2, none) => scanWikilinksAux st2 cs

/-- `md_utils._get_all_wikilinks_and_embedded_files`: `findall` of
`WIKILINK_REGEX`; component 1 is the `(!)?` group (`true` iff present),
component 2 the bracket body. -/
def get_all_wikilinks_and_embedded_files (srcTxt : String) :
    List (Bool × String) :=
  (scanWikilinksAux ScanState.s0 srcTxt.data).map
    (fun m => (m.1, String.mk m.2))

/-! ## Alias / header normalization (`md_utils`) -/

/-- Python `str.rstrip()` whitespace (ASCII part). -/
def isPyWhitespaceChar (c : Char) : Bool :=
  c = ' ' || c = '\t' || c = '\n' || c = '\r' || c.toNat = 11 || c.toNat = 12

def pyRstrip (s : List Char) : List Char :=
  ((s.reverse).dropWhile (fun c => isPyWhitespaceChar c)).reverse

/-- One element of `_remove_aliases_from_wikilink_regex_matches`:
`i.replace('\\', '').split("|")[0].rstrip().split('#', 1)[0]`. -/
def removeAliasesChars (s : List Char) : List Char :=
  (pyRstrip ((s.filter (fun c => c != '\\')).takeWhile (fun c => c != '|'))).takeWhile
    (fun c => c != '#')

/-- `md_utils._remove_aliases_from_wikilink_regex_matches`. -/
def remove_aliases_from_wikilink_regex_matches (ms : List (List Char)) :
    List (List Char) :=
  ms.map removeAliasesChars

/-- Python `str.removesuffix('.md')`. -/
def pyRemoveSuffixMd (s : List Char) : List Char :=
  if s.reverse.take 3 = ['d', 'm', '.'] then s.take (s.length - 3) else s

/-- `md_utils._get_all_wikilinks_from_source_text`: non-embedded matches,
optional alias/header removal, then unconditional `.md` removal. -/
def get_all_wikilinks_from_source_text (srcTxt : String)
    (removeAliases : Bool) : List String :=
  let ms := (scanWikilinksAux ScanState.s0 srcTxt.data).filter
    (fun m => m.1 = false)
  let ls := ms.map (fun m => m.2)
  let ls2 := if removeAliases then ls.map removeAliasesChars else ls
  (ls2.map pyRemoveSuffixMd).map String.mk

/-- `md_utils._get_all_embedded_files_from_source_text`: embedded (`!`)
matches, optional alias/header removal, no extension removal. -/
def get_all_embedded_files_from_source_text (srcTxt : String)
    (removeAliases : Bool) : List String :=
  let ms := (scanWikilinksAux ScanState.s0 srcTxt.data).filter
    (fun m => m.1 = true)
  let ls := ms.map (fun m => m.2)
  let ls2 := if removeAliases then ls.map removeAliasesChars else ls
  ls2.map String.mk

/-- `md_utils._get_unique_wikilinks_from_source_text`
(`list(dict.fromkeys(...))`). -/
def get_unique_wikilinks_from_source_text (srcTxt : String)
    (removeAliases : Bool) : List String :=
  uniqueKeepFirst (get_all_wikilinks_from_source_text srcTxt removeAliases)

/-! ## Path Resolver

`Vault.__get_relpaths_by_name` (md and canvas branches) and
`_io._get_shortest_path_by_filename`.  All three share the collision rule:
an entry whose derived short name occurs more than once in the whole list
(`np.unique` + `counts[inverse_ix] > 1`) is keyed by its full relative
path instead.  An md path is its directory segments plus the stem
(the file on disk is `base ++ ".md"`, and `Path.stem` / `with_suffix('')`
drop that extension). -/

structure MdPath where
  dirs : List String
  base : String
deriving DecidableEq

def MdPath.fullSansExt (p : MdPath) : String :=
  posixJoin (p.dirs ++ [p.base])

/-- `Vault.__get_relpaths_by_name` with `extension='md'`: key is the stem,
or `str(fpath.with_suffix(''))` for entries with a duplicated stem. -/
def get_md_relpaths_by_name (ps : List MdPath) : List (String × MdPath) :=
  ps.map (fun p =>
    (if 1 < (ps.map MdPath.base).count p.base then p.fullSansExt else p.base,
     p))

/-- `_io._get_shortest_path_by_filename`: key is the filename with
extension (`f.name`), or `str(fpath)` for entries with a duplicated
filename. -/
def get_shortest_path_by_filename (ps : List (List String)) :
    List (String × List String) :=
  ps.map (fun p =>
    (if 1 < (ps.map fileNameOf).count (fileNameOf p) then posixJoin p
     else fileNameOf p,
     p))

/-- `Vault.__get_relpaths_by_name` with `extension='canvas'`: key is the
filename with extension, or `str(fpath)` for duplicated filenames (the
same rule as `_get_shortest_path_by_filename`). -/
def get_canvas_relpaths_by_name (ps : List (List String)) :
    List (String × List String) :=
  ps.map (fun p =>
    (if 1 < (ps.map fileNameOf).count (fileNameOf p) then posixJoin p
     else fileNameOf p,
     p))

/-! ## The Vault

One record per `api.Vault` instance.  The `fs` / `canvasFs` /
`mediaRelpaths` / `canvasRelpaths` fields model the disk: per-note data
(the normalized source text plus the outputs of the external md-link /
tag / math / front-matter tokenizers, which the spec scopes out of the
core) and the lists of existing media and canvas files. -/

structure NoteSrc where
  text : String
  mdLinks : List String
  tagsMain : List String
  tagsNested : List String
  math : List String
  frontMatter : String
deriving DecidableEq

structure Vault where
  mdFileIndex : List (String × String)
  canvasFileIndex : List (String × String)
  fs : List (String × NoteSrc)
  canvasFs : List (String × String)
  mediaRelpaths : List (List String)
  canvasRelpaths : List (List String)
  isConnected : Bool
  attachments : Option Bool
  graphData : List (String × List String)
  wikilinksIndex : List (String × List String)
  uniqueWikilinksIndex : List (String × List String)
  embeddedFilesIndex : List (String × List String)
  mdLinksIndex : List (String × List String)
  uniqueMdLinksIndex : List (String × List String)
  tagsIndex : List (String × List String)
  mathIndex : List (String × List String)
  frontMatterIndex : List (String × String)
  backlinksIndex : List (String × List String)
  nonexistentNotes : List String
  isolatedNotes : List String
  mediaFileIndex : List (String × List String)
  nonexistentMediaFiles : List String
  isolatedMediaFiles : List String
  canvasContentIndex : List (String × String)
  canvasGraphDetailIndex : List (String × String)
  nonexistentCanvasFiles : List String
  isolatedCanvasFiles : List String
deriving DecidableEq

/-- `Vault.__init__`: the two file indexes are set, everything else is
empty / not-yet-connected. -/
def Vault.init (mdFileIndex canvasFileIndex : List (String × String))
    (fs : List (String × NoteSrc)) (canvasFs : List (String × String))
    (mediaRelpaths canvasRelpaths : List (List String)) : Vault :=
  { mdFileIndex := mdFileIndex, canvasFileIndex := canvasFileIndex,
    fs := fs, canvasFs := canvasFs,
    mediaRelpaths := mediaRelpaths, canvasRelpaths := canvasRelpaths,
    isConnected := false, attachments := none,
    graphData := [], wikilinksIndex := [], uniqueWikilinksIndex := [],
    embeddedFilesIndex := [], mdLinksIndex := [], uniqueMdLinksIndex := [],
    tagsIndex := [], mathIndex := [], frontMatterIndex := [],
    backlinksIndex := [], nonexistentNotes := [], isolatedNotes := [],
    mediaFileIndex := [], nonexistentMediaFiles := [],
    isolatedMediaFiles := [],
    canvasContentIndex := [], canvasGraphDetailIndex := [],
    nonexistentCanvasFiles := [], isolatedCanvasFiles := [] }

/-! ## Graph construction (`nx.MultiDiGraph` from a dict of lists)

`nx.MultiDiGraph(d)` adds the dict keys as nodes, then one directed edge
per occurrence of a target in a value list (parallel edges kept for a
directed multigraph), adding targets as nodes on first mention. -/

def graphEdges (d : List (String × List String)) : List (String × String) :=
  d.flatMap (fun e => e.2.map (fun t => (e.1, t)))

def graphNodes (d : List (String × List String)) : List String :=
  uniqueKeepFirst (d.map Prod.fst ++ (graphEdges d).map Prod.snd)

/-- `Vault._get_backlinks_index`: node ↦ sources of its in-edges, one entry
per inbound edge (the in-edge enumeration follows edge-insertion order). -/
def get_backlinks_index (d : List (String × List String)) :
    List (String × List String) :=
  (graphNodes d).map
    (fun n => (n, ((graphEdges d).filter (fun e => e.2 = n)).map Prod.fst))

/-- `nx.isolates`: nodes with zero in-degree and zero out-degree. -/
def nxIsolates (d : List (String × List String)) : List String :=
  (graphNodes d).filter
    (fun n => (graphEdges d).all (fun e => !(e.1 = n) && !(e.2 = n)))

/-! ## connect() pipeline -/

/-- Modelled from the spec: `Vault._connect_update_based_on_new_relpath`
passes `exclude_canvas = not self._attachments` into the wikilink
extraction, but the implementation of that keyword is absent from the
`md_utils` under `src` (the function there accepts no such argument; only
the caller exists).  Spec §4.4: in default mode "wikilinks whose target
matches a known canvas filename are filtered out before graph
construction". -/
def excludeCanvasTargets (canvasNames : List String) (exclude : Bool)
    (targets : List String) : List String :=
  if exclude then targets.filter (fun t => !(canvasNames.contains t))
  else targets

/-- The one file read of `_connect_update_based_on_new_relpath` (front
matter split, HTML conversion and plaintext extraction are the external
normalizer; its output is the stored `NoteSrc`). -/
def noteSrcOf (v : Vault) (relpath : String) : NoteSrc :=
  (v.fs.lookup relpath).getD ⟨"", [], [], [], [], ""⟩

/-- The loop over `self._md_file_index.items()` in `connect`, applying
`_connect_update_based_on_new_relpath` to every note. -/
def connectUpdateIndexes (v : Vault) (showNestedTags attachments : Bool) :
    Vault :=
  let canvasNames := v.canvasFileIndex.map Prod.fst
  let excl := !attachments
  { v with
    mdLinksIndex :=
      v.mdFileIndex.map (fun e => (e.1, (noteSrcOf v e.2).mdLinks)),
    uniqueMdLinksIndex :=
      v.mdFileIndex.map
        (fun e => (e.1, uniqueKeepFirst (noteSrcOf v e.2).mdLinks)),
    embeddedFilesIndex :=
      v.mdFileIndex.map
        (fun e => (e.1, get_all_embedded_files_from_source_text
          (noteSrcOf v e.2).text true)),
    wikilinksIndex :=
      v.mdFileIndex.map
        (fun e => (e.1, excludeCanvasTargets canvasNames excl
          (get_all_wikilinks_from_source_text (noteSrcOf v e.2).text true))),
    uniqueWikilinksIndex :=
      v.mdFileIndex.map
        (fun e => (e.1, uniqueKeepFirst (excludeCanvasTargets canvasNames excl
          (get_all_wikilinks_from_source_text (noteSrcOf v e.2).text true)))),
    mathIndex :=
      v.mdFileIndex.map (fun e => (e.1, (noteSrcOf v e.2).math)),
    frontMatterIndex :=
      v.mdFileIndex.map (fun e => (e.1, (noteSrcOf v e.2).frontMatter)),
    tagsIndex :=
      v.mdFileIndex.map
        (fun e => (e.1, if showNestedTags then (noteSrcOf v e.2).tagsNested
          else (noteSrcOf v e.2).tagsMain)) }

/-- The loop over `self._canvas_file_index.items()` in `connect`.  Canvas
JSON decoding and layout are the external canvas decoder; both derived
indexes are deterministic in the file content, modelled by the content
itself. -/
def connectCanvasContent (v : Vault) : Vault :=
  { v with
    canvasContentIndex :=
      v.canvasFileIndex.map
        (fun e => (e.1, (v.canvasFs.lookup e.2).getD "")),
    canvasGraphDetailIndex :=
      v.canvasFileIndex.map
        (fun e => (e.1, (v.canvasFs.lookup e.2).getD "")) }

/-- `Vault.__get_file_dicts_tuple`: classify one attachment kind into
(existent linked, existent not linked, nonexistent linked).  The Python
sets only ever feed membership tests, so they are lists filtered in
insertion order here. -/
def getFileDictsTuple (v : Vault) (linkedFilesList : List String)
    (linksIndex : List (String × List String))
    (existingFileRelpaths : List (List String))
    (otherFpathsNotWanted : List (List String)) :
    List (String × List String) × List (String × List String) ×
      List String :=
  let shortestNamesExistent :=
    get_shortest_path_by_filename existingFileRelpaths
  let existNames := shortestNamesExistent.map Prod.fst
  let notWanted := fun (fn : String) =>
    existNames.contains fn || v.nonexistentNotes.contains fn ||
      (v.mdFileIndex.map Prod.fst).contains fn
  let shortestNamesNonexistentKeys :=
    uniqueKeepFirst ((linksIndex.flatMap Prod.snd).filter
      (fun fn => !(notWanted fn) &&
        !(otherFpathsNotWanted.contains (pathOfString fn))))
  let shortestNamesNonexistent :=
    shortestNamesNonexistentKeys.map (fun fn => (fn, pathOfString fn))
  let shortestNames := shortestNamesExistent ++ shortestNamesNonexistent
  let setFilesExistentLinked :=
    existNames.filter (fun n => linkedFilesList.contains n)
  let setFilesExistentNotLinked :=
    existNames.filter (fun n => !(setFilesExistentLinked.contains n))
  let linkedFilesByShortPath :=
    shortestNames.filter (fun e => setFilesExistentLinked.contains e.1)
  let nonLinkedFilesByShortPath :=
    shortestNames.filter (fun e => setFilesExistentNotLinked.contains e.1)
  let nonexistentFilesByShortPath :=
    shortestNamesNonexistentKeys.filter
      (fun k => linkedFilesList.contains k)
  (linkedFilesByShortPath, nonLinkedFilesByShortPath,
    nonexistentFilesByShortPath)

/-- `Vault._set_media_file_attrs` (media kind: embedded-file links against
existing media files; the media file index is only set while empty). -/
def Vault.setMediaFileAttrs (v : Vault) : Vault :=
  let t := getFileDictsTuple v (v.embeddedFilesIndex.flatMap Prod.snd)
    v.embeddedFilesIndex v.mediaRelpaths v.canvasRelpaths
  { v with
    mediaFileIndex :=
      if v.mediaFileIndex = [] then pyDictMerge t.1 t.2.1
      else v.mediaFileIndex,
    nonexistentMediaFiles := t.2.2,
    isolatedMediaFiles := t.2.1.map Prod.fst }

/-- `Vault._set_canvas_file_attrs` (canvas kind: wikilinks against existing
canvas files; no index is written). -/
def Vault.setCanvasFileAttrs (v : Vault) : Vault :=
  let t := getFileDictsTuple v (v.wikilinksIndex.flatMap Prod.snd)
    v.wikilinksIndex v.canvasRelpaths v.mediaRelpaths
  { v with
    nonexistentCanvasFiles := t.2.2,
    isolatedCanvasFiles := t.2.1.map Prod.fst }

/-- `Vault.__get_graph_data_dict`.  In attachments mode the Python source
iterates a `set` of keys; the key set is modelled in first-occurrence
order (no claim depends on that order). -/
def Vault.getGraphDataDict (v : Vault) (attachments : Bool) :
    List (String × List String) :=
  if attachments = false then v.wikilinksIndex
  else
    let keys := uniqueKeepFirst (v.wikilinksIndex.map Prod.fst ++
      v.embeddedFilesIndex.map Prod.fst)
    let dOut := keys.map (fun n =>
      (n, ((v.wikilinksIndex.lookup n).getD []) ++
        ((v.embeddedFilesIndex.lookup n).getD [])))
    let isolatedFilesDict :=
      (v.isolatedMediaFiles ++ v.isolatedCanvasFiles).map
        (fun sp => (sp, ([] : List String)))
    pyDictMerge dOut isolatedFilesDict

/-- `Vault._get_nonexistent_notes`: backlink-index keys minus every known
existing or placeholder non-note entity (Python set difference; modelled
as a first-occurrence filter). -/
def Vault.getNonexistentNotes (v : Vault) : List String :=
  (uniqueKeepFirst (v.backlinksIndex.map Prod.fst)).filter
    (fun n => !((v.mdFileIndex.map Prod.fst).contains n) &&
      !((v.mediaFileIndex.map Prod.fst).contains n) &&
      !(v.nonexistentMediaFiles.contains n) &&
      !((v.canvasFileIndex.map Prod.fst).contains n))

/-- `Vault._get_isolated_notes`. -/
def Vault.getIsolatedNotes (v : Vault) : List String :=
  (nxIsolates v.graphData).filter
    (fun n => (v.mdFileIndex.map Prod.fst).contains n)

/-- `Vault._set_graph_related_attributes` (backlinks first; the
nonexistent-notes computation reads them). -/
def Vault.setGraphRelatedAttributes (v : Vault) : Vault :=
  let v2 := { v with backlinksIndex := get_backlinks_index v.graphData }
  { v2 with
    nonexistentNotes := v2.getNonexistentNotes,
    isolatedNotes := v2.getIsolatedNotes }

/-- The body of `Vault.connect` (runs only when not yet connected). -/
def Vault.doConnect (v : Vault) (showNestedTags attachments : Bool) :
    Vault :=
  let v1 := connectUpdateIndexes { v with attachments := some attachments }
    showNestedTags attachments
  let v2 := connectCanvasContent v1
  let v3 := v2.setCanvasFileAttrs
  let v4 := v3.setMediaFileAttrs
  let v5 := { v4 with graphData := v4.getGraphDataDict attachments }
  let v6 := v5.setGraphRelatedAttributes
  let v7 := v6.setCanvasFileAttrs
  let v8 := v7.setMediaFileAttrs
  { v8 with isConnected := true }

/-- `Vault.connect`: a no-op when already connected. -/
def Vault.connect (v : Vault) (showNestedTags attachments : Bool) : Vault :=
  if v.isConnected then v else v.doConnect showNestedTags attachments

/-! ## Analytic accessors -/

def connectErrMsg : String := "Connect notes before calling the function"

def notFoundInGraphMsg (n : String) : String :=
  "\"" ++ n ++ "\" not found in graph."

def doesNotExistMsg (n what : String) : String :=
  "\"" ++ n ++ "\" does not exist so it cannot have " ++ what ++ "."

/-- `Vault.get_backlinks`. -/
def Vault.get_backlinks (v : Vault) (noteName : String) :
    Except PyError (List String) :=
  if v.isConnected = false then
    Except.error (PyError.attributeError connectErrMsg)
  else if noteName ∉ graphNodes v.graphData then
    Except.error (PyError.valueError (notFoundInGraphMsg noteName))
  else dictGet v.backlinksIndex noteName

/-- `Vault.get_backlink_counts` (`dict(Counter(backlinks))`). -/
def Vault.get_backlink_counts (v : Vault) (noteName : String) :
    Except PyError (List (String × Nat)) :=
  if v.isConnected = false then
    Except.error (PyError.attributeError connectErrMsg)
  else if noteName ∉ graphNodes v.graphData then
    Except.error (PyError.valueError (notFoundInGraphMsg noteName))
  else (v.get_backlinks noteName).map counterList

/-- `Vault.get_wikilinks` (membership is checked in the md file index). -/
def Vault.get_wikilinks (v : Vault) (fileName : String) :
    Except PyError (List String) :=
  if v.isConnected = false then
    Except.error (PyError.attributeError connectErrMsg)
  else if fileName ∉ v.mdFileIndex.map Prod.fst then
    Except.error (PyError.valueError (doesNotExistMsg fileName ("wikilinks")))
  else dictGet v.wikilinksIndex fileName

/-- `Vault.get_wikilink_counts` (graph-membership check of its own, then
delegation to `get_wikilinks`). -/
def Vault.get_wikilink_counts (v : Vault) (noteName : String) :
    Except PyError (List (String × Nat)) :=
  if v.isConnected = false then
    Except.error (PyError.attributeError connectErrMsg)
  else if noteName ∉ graphNodes v.graphData then
    Except.error (PyError.valueError (notFoundInGraphMsg noteName))
  else (v.get_wikilinks noteName).map counterList

/-- `Vault.get_embedded_files`. -/
def Vault.get_embedded_files (v : Vault) (fileName : String) :
    Except PyError (List String) :=
  if v.isConnected = false then
    Except.error (PyError.attributeError connectErrMsg)
  else if fileName ∉ v.mdFileIndex.map Prod.fst then
    Except.error
      (PyError.valueError (doesNotExistMsg fileName ("embedded files")))
  else dictGet v.embeddedFilesIndex fileName

/-- `Vault.get_md_links`. -/
def Vault.get_md_links (v : Vault) (fileName : String) :
    Except PyError (List String) :=
  if v.isConnected = false then
    Except.error (PyError.attributeError connectErrMsg)
  else if fileName ∉ v.mdFileIndex.map Prod.fst then
    Except.error (PyError.valueError (doesNotExistMsg fileName ("md links")))
  else dictGet v.mdLinksIndex fileName

/-- `Vault.get_front_matter`. -/
def Vault.get_front_matter (v : Vault) (fileName : String) :
    Except PyError String :=
  if v.isConnected = false then
    Except.error (PyError.attributeError connectErrMsg)
  else if fileName ∉ v.mdFileIndex.map Prod.fst then
    Except.error
      (PyError.valueError (doesNotExistMsg fileName ("front matter")))
  else dictGet v.frontMatterIndex fileName

/-- `Vault.get_tags`. -/
def Vault.get_tags (v : Vault) (fileName : String) :
    Except PyError (List String) :=
  if v.isConnected = false then
    Except.error (PyError.attributeError connectErrMsg)
  else if fileName ∉ v.mdFileIndex.map Prod.fst then
    Except.error (PyError.valueError (doesNotExistMsg fileName ("tags")))
  else dictGet v.tagsIndex fileName

/-- Recognizer for the not-found error kind. -/
def isValueError {α : Type} : Except PyError α → Bool
  | Except.error (PyError.valueError _) => true
  | _ => false

/-- Recognizer for success. -/
def isOk {α : Type} : Except PyError α → Bool
  | Except.ok _ => true
  | _ => false

/-! ## Note bodies built from an arbitrary wikilink sequence

Used to state order/multiplicity preservation for arbitrary targets: a
note body is arbitrary filler text interleaved with `[[target]]` tokens. -/

def wrapWikilink (t : List Char) : List Char :=
  '[' :: '[' :: (t ++ [']', ']'])

/-- `mkNoteBody lead ps`: filler `lead`, then for each pair `(t, sep)` the
token `[[t]]` followed by filler `sep`. -/
def mkNoteBody : List Char → List (List Char × List Char) → List Char
  | lead, [] => lead
  | lead, p :: rest => lead ++ wrapWikilink p.1 ++ mkNoteBody p.2 rest

/-- Filler characters that cannot begin a `WIKILINK_REGEX` match. -/
def SepChar (c : Char) : Prop := c ≠ '!' ∧ c ≠ '['

/-- Characters of a link target on which the whole normalization pipeline
(alias split, header split, unescaping, rstrip) acts as the identity and
which the regex body class `[^\]]` accepts. -/
def PlainChar (c : Char) : Prop :=
  c ≠ ']' ∧ c ≠ '\\' ∧ c ≠ '|' ∧ c ≠ '#' ∧ isPyWhitespaceChar c = false

/-- A target kept verbatim by wikilink extraction: plain characters,
nonempty, and not ending in `.md`. -/
def PlainTarget (t : List Char) : Prop :=
  t ≠ [] ∧ (∀ c ∈ t, PlainChar c) ∧ t.reverse.take 3 ≠ ['d', 'm', '.']

instance decSepChar (c : Char) : Decidable (SepChar c) := by
  unfold SepChar; infer_instance

instance decPlainChar (c : Char) : Decidable (PlainChar c) := by
  unfold PlainChar; infer_instance

instance decPlainTarget (t : List Char) : Decidable (PlainTarget t) := by
  unfold PlainTarget; infer_instance

/-! ## Concrete example vaults (used by witnesses) -/

def noteWith (text : String) : NoteSrc := ⟨text, [], [], [], [], ""⟩

def exVaultEmpty : Vault := Vault.init [] [] [] [] [] []

/-- An already-connected (empty) vault. -/
def exVaultConn : Vault := exVaultEmpty.connect false false

/-! # Helper lemmas -/

theorem mem_ukfAux {α : Type} [DecidableEq α] (a : α) :
    ∀ (l seen : List α), a ∈ ukfAux seen l ↔ a ∈ l ∧ a ∉ seen := by
  intro l
  induction l with
  | nil => intro seen; simp [ukfAux]
  | cons x xs ih =>
    intro seen
    rw [ukfAux]
    by_cases hx : x ∈ seen
    · rw [if_pos hx, ih seen]
      simp only [List.mem_cons]
      constructor
      · exact fun h => ⟨Or.inr h.1, h.2⟩
      · rintro ⟨h1 | h1, h2⟩
        · subst h1; exact absurd hx h2
        · exact ⟨h1, h2⟩
    · rw [if_neg hx]
      simp only [List.mem_cons, ih (x :: seen)]
      by_cases ha : a = x
      · subst ha; simp [hx]
      · simp [ha]

theorem mem_uniqueKeepFirst {α : Type} [DecidableEq α] (a : α) (l : List α) :
    a ∈ uniqueKeepFirst l ↔ a ∈ l := by
  rw [uniqueKeepFirst, mem_ukfAux]; simp

theorem nodup_ukfAux {α : Type} [DecidableEq α] :
    ∀ (l seen : List α), (ukfAux seen l).Nodup := by
  intro l
  induction l with
  | nil => intro seen; simp [ukfAux]
  | cons x xs ih =>
    intro seen
    rw [ukfAux]
    by_cases hx : x ∈ seen
    · rw [if_pos hx]; exact ih seen
    · rw [if_neg hx]
      refine List.nodup_cons.mpr ⟨?_, ih (x :: seen)⟩
      intro hmem
      rw [mem_ukfAux] at hmem
      exact hmem.2 (List.mem_cons_self x seen)

theorem nodup_uniqueKeepFirst {α : Type} [DecidableEq α] (l : List α) :
    (uniqueKeepFirst l).Nodup :=
  nodup_ukfAux l []

theorem sum_indicator_eq_count (a : String) (ns : List String) :
    (ns.map (fun n => if a = n then 1 else 0)).sum = ns.count a := by
  induction ns with
  | nil => simp
  | cons n ns ih =>
    simp only [List.map_cons, List.sum_cons, List.count_cons, ih]
    by_cases h : a = n
    · simp [h]; omega
    · simp [h, Ne.symm h]

theorem sum_map_add {α : Type} (l : List α) (f g : α → Nat) :
    (l.map (fun x => f x + g x)).sum = (l.map f).sum + (l.map g).sum := by
  induction l with
  | nil => simp
  | cons x xs ih => simp only [List.map_cons, List.sum_cons, ih]; omega

/-- Every multigraph edge contributes exactly one entry to the backlink
list of its (unique) target node. -/
theorem sum_filter_length (ns : List String) (es : List (String × String))
    (hnd : ns.Nodup) (hsub : ∀ e ∈ es, e.2 ∈ ns) :
    (ns.map (fun n => (es.filter (fun e => e.2 = n)).length)).sum
      = es.length := by
  induction es with
  | nil => simp
  | cons e es ih =>
    have hstep : ∀ n : String,
        ((e :: es).filter (fun x => x.2 = n)).length
          = (if e.2 = n then 1 else 0) + (es.filter (fun x => x.2 = n)).length := by
      intro n
      by_cases h : e.2 = n
      · simp [List.filter_cons, h]; omega
      · simp [List.filter_cons, h]
    have hrw : (ns.map (fun n => ((e :: es).filter (fun x => x.2 = n)).length))
        = ns.map (fun n => (if e.2 = n then 1 else 0)
            + (es.filter (fun x => x.2 = n)).length) :=
      List.map_congr_left (fun n _ => hstep n)
    rw [hrw, sum_map_add, sum_indicator_eq_count,
      List.count_eq_one_of_mem hnd (hsub e (List.mem_cons_self e es)),
      ih (fun x hx => hsub x (List.mem_cons_of_mem e hx))]
    simp [List.length_cons]
    omega

theorem mem_graphNodes (d : List (String × List String)) (n : String) :
    n ∈ graphNodes d ↔
      n ∈ d.map Prod.fst ∨ n ∈ (graphEdges d).map Prod.snd := by
  rw [graphNodes, mem_uniqueKeepFirst, List.mem_append]

theorem graphEdges_target_mem (d : List (String × List String)) :
    ∀ e ∈ graphEdges d, e.2 ∈ graphNodes d := by
  intro e he
  rw [mem_graphNodes]
  exact Or.inr (List.mem_map_of_mem Prod.snd he)

/-- Total backlink-list length over all nodes equals the number of edges,
which equals the total wikilink-list length over the graph data. -/
theorem backlinks_length_sum (d : List (String × List String)) :
    ((get_backlinks_index d).map (fun e => e.2.length)).sum
      = (d.map (fun e => e.2.length)).sum := by
  unfold get_backlinks_index
  rw [List.map_map]
  have h1 : ((fun e : String × List String => e.2.length) ∘
      fun n => (n, ((graphEdges d).filter (fun e => e.2 = n)).map Prod.fst))
      = fun n => ((graphEdges d).filter (fun e => e.2 = n)).length := by
    funext n; simp
  rw [h1, sum_filter_length (graphNodes d) (graphEdges d)
    (nodup_uniqueKeepFirst _) (graphEdges_target_mem d)]
  unfold graphEdges
  rw [List.length_flatMap]
  simp [Function.comp_def]

/-! ## Scanner lemmas -/

theorem scanAux_cons_none {st st2 : ScanState} {c : Char}
    (h : scanStep st c = (st2, none)) (cs : List Char) :
    scanWikilinksAux st (c :: cs) = scanWikilinksAux st2 cs := by
  rw [scanWikilinksAux, h]

theorem scanAux_cons_some {st st2 : ScanState} {c : Char}
    {m : Bool × List Char}
    (h : scanStep st c = (st2, some m)) (cs : List Char) :
    scanWikilinksAux st (c :: cs) = m :: scanWikilinksAux st2 cs := by
  rw [scanWikilinksAux, h]

theorem scan_sIn_append (b : Bool) (t : List Char)
    (ht : ∀ c ∈ t, c ≠ ']') :
    ∀ (acc rest : List Char),
      scanWikilinksAux (ScanState.sIn b acc) (t ++ rest)
        = scanWikilinksAux (ScanState.sIn b (acc ++ t)) rest := by
  induction t with
  | nil => intro acc rest; simp
  | cons c t ih =>
    intro acc rest
    have hc : c ≠ ']' := ht c (List.mem_cons_self c t)
    have hstep : scanStep (ScanState.sIn b acc) c
        = (ScanState.sIn b (acc ++ [c]), none) := by
      simp [scanStep, hc]
    rw [List.cons_append, scanAux_cons_none hstep,
      ih (fun x hx => ht x (List.mem_cons_of_mem c hx)) (acc ++ [c]) rest,
      List.append_assoc, List.singleton_append]

theorem scan_sIn_close (b : Bool) (acc : List Char) (hacc : acc ≠ [])
    (rest : List Char) :
    scanWikilinksAux (ScanState.sIn b acc) (']' :: ']' :: rest)
      = (b, acc) :: scanWikilinksAux ScanState.s0 rest := by
  have h1 : scanStep (ScanState.sIn b acc) ']'
      = (ScanState.sC b acc, none) := by
    simp [scanStep, hacc]
  have h2 : scanStep (ScanState.sC b acc) ']'
      = (ScanState.s0, some (b, acc)) := by
    simp [scanStep]
  rw [scanAux_cons_none h1, scanAux_cons_some h2]

theorem scan_wrap_plain (t : List Char) (ht0 : t ≠ [])
    (ht : ∀ c ∈ t, c ≠ ']') (rest : List Char) :
    scanWikilinksAux ScanState.s0 (wrapWikilink t ++ rest)
      = (false, t) :: scanWikilinksAux ScanState.s0 rest := by
  have hw : wrapWikilink t ++ rest
      = '[' :: '[' :: (t ++ (']' :: ']' :: rest)) := by
    simp [wrapWikilink]
  have h1 : scanStep ScanState.s0 '[' = (ScanState.s1 false, none) := by
    simp [scanStep]
  have h2 : scanStep (ScanState.s1 false) '['
      = (ScanState.sIn false [], none) := by
    simp [scanStep]
  rw [hw, scanAux_cons_none h1, scanAux_cons_none h2,
    scan_sIn_append false t ht [] (']' :: ']' :: rest),
    List.nil_append, scan_sIn_close false t ht0 rest]

theorem scan_wrap_bang (t : List Char) (ht0 : t ≠ [])
    (ht : ∀ c ∈ t, c ≠ ']') (rest : List Char) :
    scanWikilinksAux ScanState.s0 ('!' :: (wrapWikilink t ++ rest))
      = (true, t) :: scanWikilinksAux ScanState.s0 rest := by
  have hw : wrapWikilink t ++ rest
      = '[' :: '[' :: (t ++ (']' :: ']' :: rest)) := by
    simp [wrapWikilink]
  have h0 : scanStep ScanState.s0 '!' = (ScanState.sBang, none) := by
    simp [scanStep]
  have h1 : scanStep ScanState.sBang '[' = (ScanState.s1 true, none) := by
    simp [scanStep]
  have h2 : scanStep (ScanState.s1 true) '['
      = (ScanState.sIn true [], none) := by
    simp [scanStep]
  rw [hw, scanAux_cons_none h0, scanAux_cons_none h1, scanAux_cons_none h2,
    scan_sIn_append true t ht [] (']' :: ']' :: rest),
    List.nil_append, scan_sIn_close true t ht0 rest]

theorem scan_sep (s : List Char) (hs : ∀ c ∈ s, SepChar c) :
    ∀ rest : List Char,
      scanWikilinksAux ScanState.s0 (s ++ rest)
        = scanWikilinksAux ScanState.s0 rest := by
  induction s with
  | nil => intro rest; simp
  | cons c s ih =>
    intro rest
    have hc := hs c (List.mem_cons_self c s)
    have hstep : scanStep ScanState.s0 c = (ScanState.s0, none) := by
      simp [scanStep, hc.1, hc.2]
    rw [List.cons_append, scanAux_cons_none hstep]
    exact ih (fun x hx => hs x (List.mem_cons_of_mem c hx)) rest

theorem takeWhile_eq_self_of {p : Char → Bool} {l : List Char}
    (h : ∀ c ∈ l, p c = true) : l.takeWhile p = l := by
  induction l with
  | nil => rfl
  | cons c cs ih =>
    rw [List.takeWhile_cons, h c (List.mem_cons_self c cs)]
    simp only [if_true]
    rw [ih (fun x hx => h x (List.mem_cons_of_mem c hx))]


theorem dropWhile_eq_self_of {p : Char → Bool} {l : List Char}
    (h : ∀ c ∈ l, p c = false) : l.dropWhile p = l := by
  cases l with
  | nil => rfl
  | cons c cs =>
    rw [List.dropWhile_cons, h c (List.mem_cons_self c cs)]
    simp

/-- On targets without escapes, aliases, header fragments or whitespace,
the whole `_remove_aliases_from_wikilink_regex_matches` step is the
identity. -/
theorem removeAliasesChars_plain (t : List Char)
    (h : ∀ c ∈ t, PlainChar c) : removeAliasesChars t = t := by
  unfold removeAliasesChars
  have h1 : t.filter (fun c => c != '\\') = t := by
    rw [List.filter_eq_self]
    intro c hc
    simpa using (h c hc).2.1
  rw [h1]
  have h2 : t.takeWhile (fun c => c != '|') = t :=
    takeWhile_eq_self_of (fun c hc => by simpa using (h c hc).2.2.1)
  rw [h2]
  have h3 : pyRstrip t = t := by
    unfold pyRstrip
    rw [dropWhile_eq_self_of (fun c hc => (h c (List.mem_reverse.mp hc)).2.2.2.2)]
    exact List.reverse_reverse t
  rw [h3]
  exact takeWhile_eq_self_of (fun c hc => by simpa using (h c hc).2.2.2.1)

theorem pyRemoveSuffixMd_plain (t : List Char)
    (h3 : t.reverse.take 3 ≠ ['d', 'm', '.']) : pyRemoveSuffixMd t = t := by
  rw [pyRemoveSuffixMd, if_neg h3]

/-- Scanning an interleaved body yields exactly the targets, in order,
with multiplicity. -/
theorem scan_mkNoteBody :
    ∀ (ps : List (List Char × List Char)) (lead : List Char),
      (∀ c ∈ lead, SepChar c) →
      (∀ p ∈ ps, (p.1 ≠ [] ∧ ∀ c ∈ p.1, c ≠ ']') ∧ (∀ c ∈ p.2, SepChar c)) →
      scanWikilinksAux ScanState.s0 (mkNoteBody lead ps)
        = ps.map (fun p => (false, p.1)) := by
  intro ps
  induction ps with
  | nil =>
    intro lead hlead _
    rw [mkNoteBody]
    have := scan_sep lead hlead []
    rw [List.append_nil] at this
    simp [this, scanWikilinksAux]
  | cons p ps ih =>
    intro lead hlead hps
    have hp := hps p (List.mem_cons_self p ps)
    rw [mkNoteBody, List.append_assoc, scan_sep lead hlead,
      scan_wrap_plain p.1 hp.1.1 hp.1.2,
      ih p.2 hp.2 (fun q hq => hps q (List.mem_cons_of_mem p hq))]
    rfl

/-- Unfolding of `_get_all_wikilinks_from_source_text` at
`remove_aliases=True`. -/
theorem get_all_wikilinks_true_eq (s : String) :
    get_all_wikilinks_from_source_text s true
      = ((((scanWikilinksAux ScanState.s0 s.data).filter
            (fun m => m.1 = false)).map (fun m => m.2)).map
          removeAliasesChars).map (fun l => String.mk (pyRemoveSuffixMd l)) := by
  unfold get_all_wikilinks_from_source_text
  simp [List.map_map, Function.comp_def]

/-- Unfolding of `_get_all_embedded_files_from_source_text` at
`remove_aliases=True`. -/
theorem get_all_embedded_true_eq (s : String) :
    get_all_embedded_files_from_source_text s true
      = ((((scanWikilinksAux ScanState.s0 s.data).filter
            (fun m => m.1 = true)).map (fun m => m.2)).map
          removeAliasesChars).map String.mk := by
  unfold get_all_embedded_files_from_source_text
  simp

/-- Full wikilink extraction on an interleaved body with plain targets. -/
theorem extract_mkNoteBody (ps : List (List Char × List Char))
    (lead : List Char) (hlead : ∀ c ∈ lead, SepChar c)
    (hps : ∀ p ∈ ps, PlainTarget p.1 ∧ ∀ c ∈ p.2, SepChar c) :
    get_all_wikilinks_from_source_text (String.mk (mkNoteBody lead ps)) true
      = ps.map (fun p => String.mk p.1) := by
  rw [get_all_wikilinks_true_eq]
  have hdata : (String.mk (mkNoteBody lead ps)).data = mkNoteBody lead ps := rfl
  rw [hdata, scan_mkNoteBody ps lead hlead
    (fun p hp => ⟨⟨(hps p hp).1.1, fun c hc => ((hps p hp).1.2.1 c hc).1⟩,
      (hps p hp).2⟩)]
  have hfilter : (ps.map (fun p => ((false : Bool), p.1))).filter
      (fun m => m.1 = false) = ps.map (fun p => ((false : Bool), p.1)) := by
    rw [List.filter_eq_self]
    intro m hm
    rw [List.mem_map] at hm
    obtain ⟨q, _, hq⟩ := hm
    subst hq
    simp
  rw [hfilter]
  simp only [List.map_map]
  apply List.map_congr_left
  intro p hp
  have hplain := (hps p hp).1
  simp only [Function.comp_apply]
  rw [removeAliasesChars_plain p.1 hplain.2.1, pyRemoveSuffixMd_plain p.1 hplain.2.2]

/-! # Claims -/

/-- C1: for every vault connected in default mode (attachments=False), the
sum over all graph nodes of the length of their backlink list equals the
sum over all notes of the length of their wikilink list: every wikilink
occurrence becomes exactly one multigraph edge and hence exactly one
backlink entry. -/
theorem claim_C1 (md cv : List (String × String))
    (fs : List (String × NoteSrc)) (cfs : List (String × String))
    (mrp crp : List (List String)) (sn : Bool) :
    (((Vault.init md cv fs cfs mrp crp).connect sn false).backlinksIndex.map
        (fun e => e.2.length)).sum
      = (((Vault.init md cv fs cfs mrp crp).connect sn
          false).wikilinksIndex.map (fun e => e.2.length)).sum := by
  have h1 : ((Vault.init md cv fs cfs mrp crp).connect sn false).backlinksIndex
      = get_backlinks_index
        (((Vault.init md cv fs cfs mrp crp).connect sn false).wikilinksIndex) :=
    rfl
  rw [h1, backlinks_length_sum]

/-- C3 counterexample: the claim says `![[file.png#section]]` normalizes to
`file.png#section` (no header-fragment stripping for embedded files), but
the shared helper `_remove_aliases_from_wikilink_regex_matches` also
performs the `split('#', 1)[0]` step, so the code yields `file.png`. -/
theorem claim_C3_counterexample :
    get_all_embedded_files_from_source_text ("![[file.png#section]]") true
        = [("file.png")] ∧
      get_all_embedded_files_from_source_text ("![[file.png#section]]") true
        ≠ [("file.png#section")] := by
  constructor
  · decide
  · decide

/-- C3 (amended): embedded-file normalization applies the same combined
alias-splitting AND header-fragment stripping as wikilinks (the shared
helper), but performs no extension stripping: a plain target keeps its
extension verbatim (`![[file.png]]` ↦ `file.png`, and even a `.md`
extension is kept, unlike for wikilinks). -/
theorem claim_C3_amended (t u : List Char) (ht0 : t ≠ [])
    (htc : ∀ c ∈ t, c ≠ ']') (hu0 : u ≠ []) (huc : ∀ c ∈ u, PlainChar c) :
    get_all_embedded_files_from_source_text
        (String.mk ('!' :: wrapWikilink t)) true
      = [String.mk (removeAliasesChars t)] ∧
    get_all_embedded_files_from_source_text
        (String.mk ('!' :: wrapWikilink u)) true
      = [String.mk u] := by
  have key : ∀ w : List Char, w ≠ [] → (∀ c ∈ w, c ≠ ']') →
      get_all_embedded_files_from_source_text
        (String.mk ('!' :: wrapWikilink w)) true
        = [String.mk (removeAliasesChars w)] := by
    intro w hw0 hwc
    rw [get_all_embedded_true_eq]
    have hdata : (String.mk ('!' :: wrapWikilink w)).data
        = '!' :: (wrapWikilink w ++ []) := by
      simp
    rw [hdata, scan_wrap_bang w hw0 hwc []]
    simp [scanWikilinksAux]
  refine ⟨key t ht0 htc, ?_⟩
  rw [key u hu0 (fun c hc => (huc c hc).1), removeAliasesChars_plain u huc]

/-- C3 witness: instantiating the amended claim at `file.png#section` and
`pic.md`. -/
theorem claim_C3_witness :
    get_all_embedded_files_from_source_text ("![[file.png#section]]") true
        = [("file.png")] ∧
      get_all_embedded_files_from_source_text ("![[pic.md]]") true
        = [("pic.md")] := by
  have h := claim_C3_amended
    ['f', 'i', 'l', 'e', '.', 'p', 'n', 'g', '#', 's', 'e', 'c', 't', 'i', 'o', 'n']
    ['p', 'i', 'c', '.', 'm', 'd'] (by decide) (by decide) (by decide) (by decide)
  exact ⟨h.1, h.2⟩

/-- C7: connect() is idempotent — when a vault is already connected a
second `connect` call (with any arguments) returns the state unchanged,
and connecting twice equals connecting once. -/
theorem claim_C7 (v : Vault) (sn att sn2 att2 : Bool) :
    (v.isConnected = true → v.connect sn att = v) ∧
      (v.connect sn att).connect sn2 att2 = v.connect sn att := by
  constructor
  · intro h
    simp [Vault.connect, h]
  · by_cases h : v.isConnected
    · simp [Vault.connect, h]
    · have hb : v.isConnected = false := by simpa using h
      have hdc : (v.doConnect sn att).isConnected = true := rfl
      simp [Vault.connect, hb, hdc]

/-- C7 witness: a connected vault is left unchanged by a further connect
call with different arguments. -/
theorem claim_C7_witness : exVaultConn.connect true true = exVaultConn :=
  (claim_C7 exVaultConn true true true true).1 rfl

/-- C9 counterexample: with an explicitly given but empty allow-list and
`include_root=False`, the code treats the allow-list as absent
(`if include_subdirs:` truthiness) and returns every non-root file, while
the claim requires every file to be excluded (no parent can match an
empty allow-list and the root is not included). -/
theorem claim_C9_counterexample :
    (["sub", "f.md"] ∈
        get_relpaths_matching_subdirs [["sub", "f.md"]] [] false) ∧
      ¬(parentPosix ["sub", "f.md"] ∈
          ([] : List (List String)).map posixOfSegs ∨
        (false = true ∧ parentPosix ["sub", "f.md"] = ".")) := by
  constructor
  · decide
  · decide

/-- C9 (amended): when a NONEMPTY include_subdirs allow-list is given, a
file is included iff its direct parent directory (as a posix path
relative to root) is exactly one of the allow-listed paths, or is the
root itself when include_root is true; an empty allow-list is treated
like an absent one (only the root-exclusion flag applies). -/
theorem claim_C9_amended (files : List (List String))
    (subs : List (List String)) (hsubs : subs ≠ []) (root : Bool)
    (f : List String) :
    f ∈ get_relpaths_matching_subdirs files subs root ↔
      f ∈ files ∧ (parentPosix f ∈ subs.map posixOfSegs ∨
        (root = true ∧ parentPosix f = ".")) := by
  unfold get_relpaths_matching_subdirs
  rw [if_neg hsubs]
  cases root
  · simp [List.mem_filter]
  · simp [List.mem_filter, List.mem_append]

/-- C9 witness: a nonempty allow-list includes the direct child of an
allowed directory and excludes a file two levels below it. -/
theorem claim_C9_witness :
    (["sub", "f.md"] ∈ get_relpaths_matching_subdirs
        [["sub", "f.md"], ["sub", "deep", "g.md"]] [["sub"]] false) ∧
      (["sub", "deep", "g.md"] ∉ get_relpaths_matching_subdirs
        [["sub", "f.md"], ["sub", "deep", "g.md"]] [["sub"]] false) := by
  constructor
  · exact (claim_C9_amended [["sub", "f.md"], ["sub", "deep", "g.md"]]
      [["sub"]] (by decide) false ["sub", "f.md"]).mpr (by decide)
  · intro hm
    have h := (claim_C9_amended [["sub", "f.md"], ["sub", "deep", "g.md"]]
      [["sub"]] (by decide) false ["sub", "deep", "g.md"]).mp hm
    revert h
    decide

/-- C6: every analytic accessor raises the precondition error
(AttributeError) when the vault is not connected — regardless of the
queried name, so the precondition check takes precedence — and, once
connected, raises the distinct not-found error (ValueError) when the name
is absent from its relevant index (graph nodes for backlink-type
accessors and for the wikilink-count check; the md file index for the
note-content accessors). -/
theorem claim_C6 (v : Vault) (n : String) :
    ((v.isConnected = false → v.get_backlinks n
        = Except.error (PyError.attributeError connectErrMsg)) ∧
      (v.isConnected = true → n ∉ graphNodes v.graphData →
        isValueError (v.get_backlinks n) = true)) ∧
    ((v.isConnected = false → v.get_backlink_counts n
        = Except.error (PyError.attributeError connectErrMsg)) ∧
      (v.isConnected = true → n ∉ graphNodes v.graphData →
        isValueError (v.get_backlink_counts n) = true)) ∧
    ((v.isConnected = false → v.get_wikilinks n
        = Except.error (PyError.attributeError connectErrMsg)) ∧
      (v.isConnected = true → n ∉ v.mdFileIndex.map Prod.fst →
        isValueError (v.get_wikilinks n) = true)) ∧
    ((v.isConnected = false → v.get_wikilink_counts n
        = Except.error (PyError.attributeError connectErrMsg)) ∧
      (v.isConnected = true → n ∉ graphNodes v.graphData →
        isValueError (v.get_wikilink_counts n) = true)) ∧
    ((v.isConnected = false → v.get_embedded_files n
        = Except.error (PyError.attributeError connectErrMsg)) ∧
      (v.isConnected = true → n ∉ v.mdFileIndex.map Prod.fst →
        isValueError (v.get_embedded_files n) = true)) ∧
    ((v.isConnected = false → v.get_md_links n
        = Except.error (PyError.attributeError connectErrMsg)) ∧
      (v.isConnected = true → n ∉ v.mdFileIndex.map Prod.fst →
        isValueError (v.get_md_links n) = true)) ∧
    ((v.isConnected = false → v.get_front_matter n
        = Except.error (PyError.attributeError connectErrMsg)) ∧
      (v.isConnected = true → n ∉ v.mdFileIndex.map Prod.fst →
        isValueError (v.get_front_matter n) = true)) ∧
    ((v.isConnected = false → v.get_tags n
        = Except.error (PyError.attributeError connectErrMsg)) ∧
      (v.isConnected = true → n ∉ v.mdFileIndex.map Prod.fst →
        isValueError (v.get_tags n) = true)) := by
  refine ⟨⟨?_, ?_⟩, ⟨?_, ?_⟩, ⟨?_, ?_⟩, ⟨?_, ?_⟩, ⟨?_, ?_⟩, ⟨?_, ?_⟩,
    ⟨?_, ?_⟩, ⟨?_, ?_⟩⟩ <;> intro h
  · simp [Vault.get_backlinks, h]
  · intro h2; simp [Vault.get_backlinks, h, h2, isValueError]
  · simp [Vault.get_backlink_counts, h]
  · intro h2; simp [Vault.get_backlink_counts, h, h2, isValueError]
  · simp [Vault.get_wikilinks, h]
  · intro h2; simp [Vault.get_wikilinks, h, h2, isValueError]
  · simp [Vault.get_wikilink_counts, h]
  · intro h2; simp [Vault.get_wikilink_counts, h, h2, isValueError]
  · simp [Vault.get_embedded_files, h]
  · intro h2; simp [Vault.get_embedded_files, h, h2, isValueError]
  · simp [Vault.get_md_links, h]
  · intro h2; simp [Vault.get_md_links, h, h2, isValueError]
  · simp [Vault.get_front_matter, h]
  · intro h2; simp [Vault.get_front_matter, h, h2, isValueError]
  · simp [Vault.get_tags, h]
  · intro h2; simp [Vault.get_tags, h, h2, isValueError]

theorem excludeCanvas_nil (e : Bool) (l : List String) :
    excludeCanvasTargets [] e l = l := by
  cases e <;> simp [excludeCanvasTargets]

theorem not_mem_excludeCanvas (cnames : List String) (l : List String)
    (c : String) (hc : c ∈ cnames) :
    c ∉ excludeCanvasTargets cnames true l := by
  intro hmem
  simp only [excludeCanvasTargets, if_pos] at hmem
  rw [List.mem_filter] at hmem
  have := hmem.2
  simp at this
  exact this hc

theorem mem_graphNodes_iff (d : List (String × List String)) (n : String) :
    n ∈ graphNodes d ↔ n ∈ d.map Prod.fst ∨ ∃ e ∈ d, n ∈ e.2 := by
  rw [mem_graphNodes]
  apply or_congr Iff.rfl
  simp only [graphEdges, List.mem_map, List.mem_flatMap]
  constructor
  · rintro ⟨ed, ⟨entry, hentry, t, ht, rfl⟩, hsnd⟩
    obtain rfl : t = n := hsnd
    exact ⟨entry, hentry, ht⟩
  · rintro ⟨entry, hentry, hn⟩
    exact ⟨(entry.1, n), ⟨entry, hentry, n, hn, rfl⟩, rfl⟩

theorem lookup_of_mem_mapSelf {β : Type} {f : String → β} {ns : List String}
    {n : String} (h : n ∈ ns) :
    (ns.map (fun m => (m, f m))).lookup n = some (f n) := by
  induction ns with
  | nil => cases h
  | cons m ms ih =>
    by_cases hnm : n = m
    · subst hnm
      simp [List.lookup]
    · rw [List.mem_cons] at h
      rcases h with h | h
      · exact absurd h hnm
      · have hbeq : (n == m) = false := by simp [hnm]
        simpa [List.lookup, hbeq] using ih h

theorem get_wikilinks_found {v : Vault} {n : String} {l : List String}
    (h1 : v.isConnected = true) (h2 : n ∈ v.mdFileIndex.map Prod.fst)
    (h3 : v.wikilinksIndex.lookup n = some l) :
    v.get_wikilinks n = Except.ok l := by
  unfold Vault.get_wikilinks
  rw [if_neg (by simp [h1]), if_neg (by simp [h2])]
  unfold dictGet
  rw [h3]

/-- C8: wikilink extraction preserves source order and multiplicity — a
note whose body contains wikilinks in order [A, B, A, C] (with arbitrary
non-link filler in between) yields exactly [A, B, A, C], both from the
extraction function and from `get_wikilinks` after `connect`. -/
theorem claim_C8 (a b c : List Char) (f0 f1 f2 f3 f4 : List Char)
    (ha : PlainTarget a) (hb : PlainTarget b) (hc : PlainTarget c)
    (hf0 : ∀ ch ∈ f0, SepChar ch) (hf1 : ∀ ch ∈ f1, SepChar ch)
    (hf2 : ∀ ch ∈ f2, SepChar ch) (hf3 : ∀ ch ∈ f3, SepChar ch)
    (hf4 : ∀ ch ∈ f4, SepChar ch) :
    get_all_wikilinks_from_source_text
        (String.mk (mkNoteBody f0 [(a, f1), (b, f2), (a, f3), (c, f4)])) true
      = [String.mk a, String.mk b, String.mk a, String.mk c] ∧
    (Vault.connect (Vault.init [(("n"), ("n.md"))] []
        [(("n.md"), noteWith (String.mk
          (mkNoteBody f0 [(a, f1), (b, f2), (a, f3), (c, f4)])))]
        [] [] []) false false).get_wikilinks ("n")
      = Except.ok [String.mk a, String.mk b, String.mk a, String.mk c] := by
  have hmain : get_all_wikilinks_from_source_text
      (String.mk (mkNoteBody f0 [(a, f1), (b, f2), (a, f3), (c, f4)])) true
      = [String.mk a, String.mk b, String.mk a, String.mk c] := by
    have h := extract_mkNoteBody [(a, f1), (b, f2), (a, f3), (c, f4)] f0 hf0
      (by
        intro p hp
        rw [List.mem_cons, List.mem_cons, List.mem_cons, List.mem_cons] at hp
        rcases hp with rfl | rfl | rfl | rfl | hp
        · exact ⟨ha, hf1⟩
        · exact ⟨hb, hf2⟩
        · exact ⟨ha, hf3⟩
        · exact ⟨hc, hf4⟩
        · cases hp)
    simpa using h
  refine ⟨hmain, ?_⟩
  have hw : (Vault.connect (Vault.init [(("n"), ("n.md"))] []
      [(("n.md"), noteWith (String.mk
        (mkNoteBody f0 [(a, f1), (b, f2), (a, f3), (c, f4)])))]
      [] [] []) false false).wikilinksIndex
      = [(("n"), excludeCanvasTargets [] true
          (get_all_wikilinks_from_source_text (String.mk
            (mkNoteBody f0 [(a, f1), (b, f2), (a, f3), (c, f4)])) true))] :=
    rfl
  exact get_wikilinks_found
    (show (Vault.connect (Vault.init [(("n"), ("n.md"))] []
        [(("n.md"), noteWith (String.mk
          (mkNoteBody f0 [(a, f1), (b, f2), (a, f3), (c, f4)])))]
        [] [] []) false false).isConnected = true from rfl)
    (by exact List.mem_cons_self _ _)
    (by rw [hw, excludeCanvas_nil, hmain]; simp [List.lookup])

/-- C8 witness: instantiating with targets A, B, A, C and plain filler. -/
theorem claim_C8_witness :
    get_all_wikilinks_from_source_text
        (String.mk (mkNoteBody (("hi ").data)
          [((("A").data), ((" . ").data)), ((("B").data), ((" . ").data)),
            ((("A").data), ((" . ").data)), ((("C").data), ((" .").data))]))
        true = [("A"), ("B"), ("A"), ("C")] ∧
    (Vault.connect (Vault.init [(("n"), ("n.md"))] []
        [(("n.md"), noteWith (String.mk (mkNoteBody (("hi ").data)
          [((("A").data), ((" . ").data)), ((("B").data), ((" . ").data)),
            ((("A").data), ((" . ").data)), ((("C").data), ((" .").data))])))]
        [] [] []) false false).get_wikilinks ("n")
      = Except.ok [("A"), ("B"), ("A"), ("C")] :=
  claim_C8 (("A").data) (("B").data) (("C").data) (("hi ").data)
    ((" . ").data) ((" . ").data) ((" . ").data) ((" .").data)
    (by decide) (by decide) (by decide) (by decide) (by decide)
    (by decide) (by decide) (by decide)

/-- C2: with attachments=False, every wikilink target equal to a known
canvas filename is removed from every note's wikilinks-index entry before
the graph is built (spec-modelled exclusion step), so such a canvas
filename — provided it does not coincide with a note name — is not a
graph node in default mode. -/
theorem claim_C2 (md cv : List (String × String))
    (fs : List (String × NoteSrc)) (cfs : List (String × String))
    (mrp crp : List (List String)) (sn : Bool) :
    (∀ e ∈ ((Vault.init md cv fs cfs mrp crp).connect sn
        false).wikilinksIndex,
      ∀ c ∈ cv.map Prod.fst, c ∉ e.2) ∧
    (∀ c ∈ cv.map Prod.fst, c ∉ md.map Prod.fst →
      c ∉ graphNodes (((Vault.init md cv fs cfs mrp crp).connect sn
        false).graphData)) := by
  have hw : ((Vault.init md cv fs cfs mrp crp).connect sn
      false).wikilinksIndex
      = md.map (fun e => (e.1, excludeCanvasTargets (cv.map Prod.fst) true
          (get_all_wikilinks_from_source_text
            ((fs.lookup e.2).getD ⟨"", [], [], [], [], ""⟩).text true))) :=
    rfl
  have hpart1 : ∀ e ∈ ((Vault.init md cv fs cfs mrp crp).connect sn
      false).wikilinksIndex, ∀ c ∈ cv.map Prod.fst, c ∉ e.2 := by
    intro e he c hcv
    rw [hw, List.mem_map] at he
    obtain ⟨x, _, rfl⟩ := he
    exact not_mem_excludeCanvas (cv.map Prod.fst) _ c hcv
  refine ⟨hpart1, ?_⟩
  intro c hcv hcmd hmem
  have hg : ((Vault.init md cv fs cfs mrp crp).connect sn false).graphData
      = ((Vault.init md cv fs cfs mrp crp).connect sn false).wikilinksIndex :=
    rfl
  rw [hg, mem_graphNodes_iff] at hmem
  rcases hmem with hmem | ⟨e, he, hc2⟩
  · rw [hw, List.map_map] at hmem
    simp only [Function.comp_def] at hmem
    rw [List.mem_map] at hmem
    obtain ⟨x, hx, hx2⟩ := hmem
    exact hcmd (hx2 ▸ List.mem_map_of_mem Prod.fst hx)
  · exact hpart1 e he c hcv hc2

/-- C2 witness: a note linking to an existing canvas file; the canvas
filename is not a node of the default-mode graph. -/
theorem claim_C2_witness :
    ("c.canvas") ∉ graphNodes
      ((Vault.connect (Vault.init [(("A"), ("A.md"))]
        [(("c.canvas"), ("c.canvas"))]
        [(("A.md"), noteWith ("[[B]] [[c.canvas]]"))] [] []
        [[("c.canvas")]]) false false).graphData) :=
  (claim_C2 [(("A"), ("A.md"))] [(("c.canvas"), ("c.canvas"))]
    [(("A.md"), noteWith ("[[B]] [[c.canvas]]"))] [] [] [[("c.canvas")]]
    false).2 ("c.canvas") (by decide) (by decide)

/-- C10: a name that is a graph node but not a note file (a nonexistent
note) makes `get_wikilink_counts` raise the not-found error — its own
graph-membership check passes, but the delegation to `get_wikilinks`
requires membership in the md file index — while `get_backlink_counts`
on the same name succeeds. -/
theorem claim_C10 (md cv : List (String × String))
    (fs : List (String × NoteSrc)) (cfs : List (String × String))
    (mrp crp : List (List String)) (sn att : Bool) (n : String)
    (h1 : n ∈ graphNodes
      (((Vault.init md cv fs cfs mrp crp).connect sn att).graphData))
    (h2 : n ∉ md.map Prod.fst) :
    isValueError (((Vault.init md cv fs cfs mrp crp).connect sn
        att).get_wikilink_counts n) = true ∧
      isOk (((Vault.init md cv fs cfs mrp crp).connect sn
        att).get_backlink_counts n) = true := by
  have hconn : ((Vault.init md cv fs cfs mrp crp).connect sn
      att).isConnected = true := rfl
  have hmd : ((Vault.init md cv fs cfs mrp crp).connect sn
      att).mdFileIndex = md := rfl
  constructor
  · unfold Vault.get_wikilink_counts
    rw [if_neg (by simp [hconn]), if_neg (by simp [h1])]
    unfold Vault.get_wikilinks
    rw [if_neg (by simp [hconn]), if_pos (by rw [hmd]; exact h2)]
    rfl
  · unfold Vault.get_backlink_counts
    rw [if_neg (by simp [hconn]), if_neg (by simp [h1])]
    unfold Vault.get_backlinks
    rw [if_neg (by simp [hconn]), if_neg (by simp [h1])]
    have hbl : ((Vault.init md cv fs cfs mrp crp).connect sn
        att).backlinksIndex
        = get_backlinks_index (((Vault.init md cv fs cfs mrp crp).connect sn
          att).graphData) := rfl
    unfold dictGet
    rw [hbl]
    unfold get_backlinks_index
    rw [lookup_of_mem_mapSelf h1]
    rfl

/-- C10 witness: vault with `A.md` containing `[[B]] [[B]]`; `B` is a
graph node without an md file. -/
theorem claim_C10_witness :
    isValueError ((Vault.connect (Vault.init [(("A"), ("A.md"))] []
        [(("A.md"), noteWith ("[[B]] [[B]]"))] [] [] [])
        false false).get_wikilink_counts ("B")) = true ∧
      isOk ((Vault.connect (Vault.init [(("A"), ("A.md"))] []
        [(("A.md"), noteWith ("[[B]] [[B]]"))] [] [] [])
        false false).get_backlink_counts ("B")) = true :=
  claim_C10 [(("A"), ("A.md"))] [] [(("A.md"), noteWith ("[[B]] [[B]]"))]
    [] [] [] false false ("B") (by decide) (by decide)

theorem two_le_count_map {α : Type} (name : α → String) :
    ∀ (l : List α) (p q : α), p ∈ l → q ∈ l → p ≠ q → name p = name q →
      2 ≤ (l.map name).count (name p) := by
  intro l
  induction l with
  | nil => intro p q hp _ _ _; cases hp
  | cons x xs ih =>
    intro p q hp hq hne heq
    rw [List.mem_cons] at hp hq
    rcases hp with rfl | hp
    · rcases hq with rfl | hq
      · exact absurd rfl hne
      · have h1 : 0 < (xs.map name).count (name p) := by
          rw [heq]
          exact List.count_pos_iff.mpr (List.mem_map_of_mem name hq)
        rw [List.map_cons, List.count_cons]
        simp only [beq_self_eq_true, if_true]
        omega
    · rcases hq with rfl | hq
      · have h1 : 0 < (xs.map name).count (name p) :=
          List.count_pos_iff.mpr (List.mem_map_of_mem name hp)
        rw [List.map_cons, List.count_cons]
        have hb : (name q == name p) = true := by simp [heq]
        rw [hb]
        simp only [if_true]
        omega
      · have h2 := ih p q hp hq hne heq
        rw [List.map_cons, List.count_cons]
        split <;> omega

/-- The collision rule produces pairwise-distinct keys, provided the full
paths are distinct and no full path of a colliding entry can equal the
bare short name of a non-colliding one. -/
theorem keyFor_nodup {α : Type} [DecidableEq α] (l : List α)
    (name full : α → String) (hfull : (l.map full).Nodup)
    (hmix : ∀ p ∈ l, ∀ q ∈ l, full q = name p → name q = name p) :
    (l.map (fun p => if 1 < (l.map name).count (name p) then full p
        else name p)).Nodup := by
  have hlnd : l.Nodup := List.Nodup.of_map full hfull
  refine List.Nodup.map_on ?_ hlnd
  intro x hx y hy hxy
  by_cases cx : 1 < (l.map name).count (name x)
  · by_cases cy : 1 < (l.map name).count (name y)
    · rw [if_pos cx, if_pos cy] at hxy
      exact List.inj_on_of_nodup_map hfull hx hy hxy
    · rw [if_pos cx, if_neg cy] at hxy
      have h1 : name x = name y := hmix y hy x hx hxy
      rw [← h1] at cy
      exact absurd cx cy
  · by_cases cy : 1 < (l.map name).count (name y)
    · rw [if_neg cx, if_pos cy] at hxy
      have h1 : name y = name x := hmix x hx y hy hxy.symm
      rw [← h1] at cx
      exact absurd cy cx
    · rw [if_neg cx, if_neg cy] at hxy
      by_contra hne
      have h2 := two_le_count_map name l x y hx hy hne hxy
      omega

theorem keyFor_mem {α : Type} [DecidableEq α] (l : List α)
    (name full : α → String) (p : α) (hp : p ∈ l) :
    ((l.map name).count (name p) = 1 →
      (name p, p) ∈ l.map (fun q =>
        (if 1 < (l.map name).count (name q) then full q else name q, q))) ∧
    (1 < (l.map name).count (name p) →
      (full p, p) ∈ l.map (fun q =>
        (if 1 < (l.map name).count (name q) then full q else name q, q))) := by
  constructor
  · intro h1
    have hlt : ¬ 1 < (l.map name).count (name p) := by omega
    exact List.mem_map.mpr ⟨p, hp, by rw [if_neg hlt]⟩
  · intro h1
    exact List.mem_map.mpr ⟨p, hp, by rw [if_pos h1]⟩

theorem slash_mem_posixJoin (a : String) (l : List String) (hl : l ≠ []) :
    ('/') ∈ (posixJoin (a :: l)).data := by
  match l, hl with
  | b :: rest, _ =>
    show ('/') ∈ (a ++ "/" ++ posixJoin (b :: rest)).data
    have hd : (a ++ "/" ++ posixJoin (b :: rest)).data
        = (a.data ++ ('/' :: [])) ++ (posixJoin (b :: rest)).data := rfl
    rw [hd]
    simp

theorem fileNameOf_no_slash (q : List String)
    (hq : ∀ s ∈ q, ('/') ∉ s.data) : ('/') ∉ (fileNameOf q).data := by
  induction q with
  | nil => intro h; cases h
  | cons a t ih =>
    cases t with
    | nil => simpa [fileNameOf] using hq a (by simp)
    | cons b r =>
      have h2 := ih (fun s hs => hq s (List.mem_cons_of_mem a hs))
      simpa [fileNameOf] using h2

/-- C4: file-index construction — every file with a unique derived short
name (stem for notes, filename with extension for media/canvas) is keyed
by that short name; every file whose short name collides is keyed by its
full relative path; and the resulting key set contains no duplicates.
Stated for both the md-stem rule (`__get_relpaths_by_name`) and the
filename rule (`_get_shortest_path_by_filename`), under the natural
well-formedness assumptions: relative paths are pairwise distinct and
path segments contain no `/`. -/
theorem claim_C4 (ps : List MdPath) (qs : List (List String))
    (hnd : (ps.map MdPath.fullSansExt).Nodup)
    (hslash : ∀ p ∈ ps, ('/') ∉ p.base.data)
    (hqnd : (qs.map posixJoin).Nodup)
    (hqslash : ∀ q ∈ qs, ∀ s ∈ q, ('/') ∉ s.data) :
    (((get_md_relpaths_by_name ps).map Prod.fst).Nodup ∧
      ∀ p ∈ ps,
        ((ps.map MdPath.base).count p.base = 1 →
          (p.base, p) ∈ get_md_relpaths_by_name ps) ∧
        (1 < (ps.map MdPath.base).count p.base →
          (p.fullSansExt, p) ∈ get_md_relpaths_by_name ps)) ∧
    (((get_shortest_path_by_filename qs).map Prod.fst).Nodup ∧
      ∀ q ∈ qs,
        ((qs.map fileNameOf).count (fileNameOf q) = 1 →
          (fileNameOf q, q) ∈ get_shortest_path_by_filename qs) ∧
        (1 < (qs.map fileNameOf).count (fileNameOf q) →
          (posixJoin q, q) ∈ get_shortest_path_by_filename qs)) := by
  have hmixMd : ∀ p ∈ ps, ∀ q ∈ ps,
      MdPath.fullSansExt q = MdPath.base p →
        MdPath.base q = MdPath.base p := by
    intro p hp q hq hfq
    cases hd : q.dirs with
    | nil =>
      have he : q.fullSansExt = q.base := by
        simp [MdPath.fullSansExt, hd, posixJoin]
      rw [he] at hfq
      exact hfq
    | cons d ds =>
      exfalso
      have hs2 : ('/') ∈ (MdPath.fullSansExt q).data := by
        rw [MdPath.fullSansExt, hd]
        rw [List.cons_append]
        exact slash_mem_posixJoin d (ds ++ [q.base]) (by simp)
      rw [hfq] at hs2
      exact hslash p hp hs2
  have hmixFn : ∀ p ∈ qs, ∀ q ∈ qs,
      posixJoin q = fileNameOf p → fileNameOf q = fileNameOf p := by
    intro p hp q hq hfq
    match q with
    | [] => exact hfq
    | [s] => exact hfq
    | a :: b :: rest =>
      exfalso
      have hs2 := slash_mem_posixJoin a (b :: rest) (by simp)
      rw [hfq] at hs2
      exact fileNameOf_no_slash p (hqslash p hp) hs2
  have hmapMd : (get_md_relpaths_by_name ps).map Prod.fst
      = ps.map (fun p => if 1 < (ps.map MdPath.base).count p.base
          then p.fullSansExt else p.base) := by
    simp [get_md_relpaths_by_name, List.map_map, Function.comp_def]
  have hmapFn : (get_shortest_path_by_filename qs).map Prod.fst
      = qs.map (fun q => if 1 < (qs.map fileNameOf).count (fileNameOf q)
          then posixJoin q else fileNameOf q) := by
    simp [get_shortest_path_by_filename, List.map_map, Function.comp_def]
  refine ⟨⟨?_, ?_⟩, ⟨?_, ?_⟩⟩
  · rw [hmapMd]
    exact keyFor_nodup ps MdPath.base MdPath.fullSansExt hnd hmixMd
  · intro p hp
    exact keyFor_mem ps MdPath.base MdPath.fullSansExt p hp
  · rw [hmapFn]
    exact keyFor_nodup qs fileNameOf posixJoin hqnd hmixFn
  · intro q hq
    exact keyFor_mem qs fileNameOf posixJoin q hq

/-- C4 witness: `X/note.md` and `Y/note.md` resolve to keys `X/note` and
`Y/note`, with no duplicate keys. -/
theorem claim_C4_witness :
    ((("X/note"), (⟨[("X")], ("note")⟩ : MdPath)) ∈
        get_md_relpaths_by_name [⟨[("X")], ("note")⟩, ⟨[("Y")], ("note")⟩]) ∧
      (((get_md_relpaths_by_name
        [⟨[("X")], ("note")⟩, ⟨[("Y")], ("note")⟩]).map Prod.fst).Nodup) := by
  have h := claim_C4 [⟨[("X")], ("note")⟩, ⟨[("Y")], ("note")⟩] []
    (by decide) (by decide) (by decide) (by decide)
  refine ⟨?_, h.1.1⟩
  have h2 := (h.1.2 ⟨[("X")], ("note")⟩ (by decide)).2 (by decide)
  exact h2

/-- C6 witness: on a fresh (unconnected) vault every accessor raises the
precondition error even for an absent name, and on a connected vault an
absent name raises the not-found error. -/
theorem claim_C6_witness :
    exVaultEmpty.get_backlinks ("x")
        = Except.error (PyError.attributeError connectErrMsg) ∧
      exVaultEmpty.get_tags ("x")
        = Except.error (PyError.attributeError connectErrMsg) ∧
      isValueError (exVaultConn.get_backlinks ("x")) = true ∧
      isValueError (exVaultConn.get_wikilink_counts ("x")) = true ∧
      isValueError (exVaultConn.get_front_matter ("x")) = true :=
  ⟨((claim_C6 exVaultEmpty ("x")).1).1 rfl,
    ((claim_C6 exVaultEmpty ("x")).2.2.2.2.2.2.2).1 rfl,
    ((claim_C6 exVaultConn ("x")).1).2 rfl (by decide),
    ((claim_C6 exVaultConn ("x")).2.2.2.1).2 rfl (by decide),
    ((claim_C6 exVaultConn ("x")).2.2.2.2.2.2.1).2 rfl (by decide)⟩


theorem gft_nonex_keys (u : Vault) (L : List String)
    (IDX : List (String × List String)) (EX OTH : List (List String)) :
    (getFileDictsTuple u L IDX EX OTH).2.2
      = (uniqueKeepFirst ((IDX.flatMap Prod.snd).filter (fun fn =>
          (!((((get_shortest_path_by_filename EX).map Prod.fst).contains fn) ||
            u.nonexistentNotes.contains fn ||
            ((u.mdFileIndex.map Prod.fst).contains fn)) &&
          !(OTH.contains (pathOfString fn)))))).filter
        (fun k => L.contains k) := rfl

theorem gft_fst_raw (u : Vault) (L : List String)
    (IDX : List (String × List String)) (EX OTH : List (List String)) :
    (getFileDictsTuple u L IDX EX OTH).1
      = ((get_shortest_path_by_filename EX)
          ++ ((uniqueKeepFirst ((IDX.flatMap Prod.snd).filter (fun fn =>
            (!((((get_shortest_path_by_filename EX).map Prod.fst).contains fn) ||
              u.nonexistentNotes.contains fn ||
              ((u.mdFileIndex.map Prod.fst).contains fn)) &&
            !(OTH.contains (pathOfString fn)))))).map
              (fun fn => (fn, pathOfString fn)))).filter
        (fun e => (((get_shortest_path_by_filename EX).map Prod.fst).filter
          (fun m => L.contains m)).contains e.1) := rfl

theorem gft_snd1_raw (u : Vault) (L : List String)
    (IDX : List (String × List String)) (EX OTH : List (List String)) :
    (getFileDictsTuple u L IDX EX OTH).2.1
      = ((get_shortest_path_by_filename EX)
          ++ ((uniqueKeepFirst ((IDX.flatMap Prod.snd).filter (fun fn =>
            (!((((get_shortest_path_by_filename EX).map Prod.fst).contains fn) ||
              u.nonexistentNotes.contains fn ||
              ((u.mdFileIndex.map Prod.fst).contains fn)) &&
            !(OTH.contains (pathOfString fn)))))).map
              (fun fn => (fn, pathOfString fn)))).filter
        (fun e => (((get_shortest_path_by_filename EX).map Prod.fst).filter
          (fun m => !((((get_shortest_path_by_filename EX).map Prod.fst).filter
            (fun x => L.contains x)).contains m))).contains e.1) := rfl


theorem snn_entries_filter_nil (keys : List String) (S : List String)
    (hkeys : ∀ fn ∈ keys, S.contains fn = false) :
    (keys.map (fun fn => (fn, pathOfString fn))).filter
      (fun e => S.contains e.1) = [] := by
  rw [List.filter_eq_nil_iff]
  intro e he
  rw [List.mem_map] at he
  obtain ⟨fn, hfn, rfl⟩ := he
  have h := hkeys fn hfn
  simp only [] at h ⊢
  simp at h ⊢
  exact h

theorem snn_key_not_existent (u : Vault) (EX OTH : List (List String))
    (IDX : List (String × List String)) (fn : String)
    (hfn : fn ∈ uniqueKeepFirst ((IDX.flatMap Prod.snd).filter (fun fn =>
      (!((((get_shortest_path_by_filename EX).map Prod.fst).contains fn) ||
        u.nonexistentNotes.contains fn ||
        ((u.mdFileIndex.map Prod.fst).contains fn)) &&
      !(OTH.contains (pathOfString fn)))))) :
    fn ∉ (get_shortest_path_by_filename EX).map Prod.fst := by
  rw [mem_uniqueKeepFirst, List.mem_filter] at hfn
  have h2 := hfn.2
  simp only [Bool.and_eq_true, Bool.not_eq_true', Bool.or_eq_false_iff] at h2
  have h3 : (((get_shortest_path_by_filename EX).map Prod.fst).contains fn)
      = false := h2.1.1.1
  simpa using h3

theorem filter_contains_false_of_not_mem (big L : List String) (fn : String)
    (h : fn ∉ big) :
    ((big.filter (fun m => L.contains m)).contains fn) = false := by
  simp
  intro hmem
  exact absurd hmem h

theorem filter_notc_false_of_not_mem (big L : List String) (fn : String)
    (h : fn ∉ big) :
    ((big.filter (fun m =>
      !((big.filter (fun x => L.contains x)).contains m))).contains fn)
      = false := by
  simp
  intro hmem
  exact absurd hmem h

theorem gft_fst_congr (u w : Vault) (L : List String)
    (IDX JDX : List (String × List String)) (EX OTH OTH2 : List (List String)) :
    (getFileDictsTuple u L IDX EX OTH).1
      = (getFileDictsTuple w L JDX EX OTH2).1 := by
  rw [gft_fst_raw, gft_fst_raw, List.filter_append, List.filter_append,
    snn_entries_filter_nil, snn_entries_filter_nil]
  · intro fn hfn
    exact filter_contains_false_of_not_mem _ _ fn
      (snn_key_not_existent w EX OTH2 JDX fn hfn)
  · intro fn hfn
    exact filter_contains_false_of_not_mem _ _ fn
      (snn_key_not_existent u EX OTH IDX fn hfn)

theorem gft_snd1_congr (u w : Vault) (L : List String)
    (IDX JDX : List (String × List String)) (EX OTH OTH2 : List (List String)) :
    (getFileDictsTuple u L IDX EX OTH).2.1
      = (getFileDictsTuple w L JDX EX OTH2).2.1 := by
  rw [gft_snd1_raw, gft_snd1_raw, List.filter_append, List.filter_append,
    snn_entries_filter_nil, snn_entries_filter_nil]
  · intro fn hfn
    exact filter_notc_false_of_not_mem _ _ fn
      (snn_key_not_existent w EX OTH2 JDX fn hfn)
  · intro fn hfn
    exact filter_notc_false_of_not_mem _ _ fn
      (snn_key_not_existent u EX OTH IDX fn hfn)


theorem filter_cond_congr_nonex (base existN mdK N NEM : List String)
    (OTH : List (List String))
    (hNnem : ∀ m ∈ N, m ∉ NEM)
    (hNEM : ∀ m ∈ base,
      ((!(existN.contains m || (([] : List String).contains m) ||
          mdK.contains m) &&
        !(OTH.contains (pathOfString m))) = true) → m ∈ NEM) :
    base.filter (fun fn =>
        (!(existN.contains fn || N.contains fn || mdK.contains fn) &&
          !(OTH.contains (pathOfString fn))))
      = base.filter (fun fn =>
        (!(existN.contains fn || (([] : List String).contains fn) ||
            mdK.contains fn) &&
          !(OTH.contains (pathOfString fn)))) := by
  apply List.filter_congr
  intro m hm
  by_cases hmN : m ∈ N
  · have h1 : N.contains m = true := by simp [hmN]
    rw [h1]
    have h3 : (!(existN.contains m || (([] : List String).contains m) ||
          mdK.contains m) &&
        !(OTH.contains (pathOfString m))) = false := by
      by_contra hb
      rw [Bool.not_eq_false] at hb
      exact hNnem m hmN (hNEM m hm hb)
    rw [h3]
    simp
  · have h1 : N.contains m = false := by simp [hmN]
    have h2 : ([] : List String).contains m = false := rfl
    rw [h1, h2]


/-- C5: after connect(), the nonexistent-notes set equals exactly the set
difference: backlink-index keys minus the union of the md file index
keys, the media file index keys, the nonexistent-media set, and the
canvas file index keys. -/
theorem claim_C5 (md cv : List (String × String))
    (fs : List (String × NoteSrc)) (cfs : List (String × String))
    (mrp crp : List (List String)) (sn att : Bool) (n : String) :
    n ∈ ((Vault.init md cv fs cfs mrp crp).connect sn att).nonexistentNotes ↔
      (n ∈ ((Vault.init md cv fs cfs mrp crp).connect sn
          att).backlinksIndex.map Prod.fst ∧
        n ∉ ((Vault.init md cv fs cfs mrp crp).connect sn
          att).mdFileIndex.map Prod.fst ∧
        n ∉ ((Vault.init md cv fs cfs mrp crp).connect sn
          att).mediaFileIndex.map Prod.fst ∧
        n ∉ ((Vault.init md cv fs cfs mrp crp).connect sn
          att).nonexistentMediaFiles ∧
        n ∉ ((Vault.init md cv fs cfs mrp crp).connect sn
          att).canvasFileIndex.map Prod.fst) := by
  set v0 : Vault := Vault.init md cv fs cfs mrp crp with hv0d
  set v1 : Vault := connectUpdateIndexes { v0 with attachments := some att }
    sn att with hv1d
  set v3 : Vault := (connectCanvasContent v1).setCanvasFileAttrs with hv3d
  set v4 : Vault := v3.setMediaFileAttrs with hv4d
  set v6 : Vault := Vault.setGraphRelatedAttributes
    { v4 with graphData := v4.getGraphDataDict att } with hv6d
  set v7 : Vault := v6.setCanvasFileAttrs with hv7d
  set v8 : Vault := v7.setMediaFileAttrs with hv8d
  set E : List (String × List String) := v1.embeddedFilesIndex with hEd
  set t4 : List (String × List String) × List (String × List String) ×
      List String := getFileDictsTuple v3 (E.flatMap Prod.snd) E mrp crp
    with ht4d
  set t8 : List (String × List String) × List (String × List String) ×
      List String := getFileDictsTuple v7 (E.flatMap Prod.snd) E mrp crp
    with ht8d
  have hNN : (v0.connect sn att).nonexistentNotes = v6.nonexistentNotes := rfl
  have hBK : (v0.connect sn att).backlinksIndex = v6.backlinksIndex := rfl
  have hMD : (v0.connect sn att).mdFileIndex = md := rfl
  have hCV : (v0.connect sn att).canvasFileIndex = cv := rfl
  have hM : (v0.connect sn att).mediaFileIndex = v8.mediaFileIndex := rfl
  have hNEM : (v0.connect sn att).nonexistentMediaFiles
      = v8.nonexistentMediaFiles := rfl
  have hv6nn : v6.nonexistentNotes
      = (uniqueKeepFirst (v6.backlinksIndex.map Prod.fst)).filter
          (fun m => ((!((md.map Prod.fst).contains m) &&
            !((v4.mediaFileIndex.map Prod.fst).contains m)) &&
              !(v4.nonexistentMediaFiles.contains m)) &&
                !((cv.map Prod.fst).contains m)) := rfl
  have hm4 : v4.mediaFileIndex = pyDictMerge t4.1 t4.2.1 := rfl
  have hnem4 : v4.nonexistentMediaFiles = t4.2.2 := rfl
  have hm8 : v8.mediaFileIndex
      = (if v4.mediaFileIndex = [] then pyDictMerge t8.1 t8.2.1
        else v4.mediaFileIndex) := rfl
  have hnem8 : v8.nonexistentMediaFiles = t8.2.2 := rfl
  have h81 : t8.1 = t4.1 :=
    gft_fst_congr v7 v3 (E.flatMap Prod.snd) E E mrp crp crp
  have h821 : t8.2.1 = t4.2.1 :=
    gft_snd1_congr v7 v3 (E.flatMap Prod.snd) E E mrp crp crp
  have hm84 : v8.mediaFileIndex = v4.mediaFileIndex := by
    rw [hm8, h81, h821, ← hm4]
    split
    · rfl
    · rfl
  have hNnem : ∀ m ∈ v6.nonexistentNotes, m ∉ t4.2.2 := by
    intro m hmN
    rw [hv6nn, List.mem_filter] at hmN
    have h2 := hmN.2
    simp only [Bool.and_eq_true, Bool.not_eq_true'] at h2
    have h3 : v4.nonexistentMediaFiles.contains m = false := h2.1.2
    rw [hnem4] at h3
    simpa using h3
  have hNEM2 : ∀ m ∈ E.flatMap Prod.snd,
      ((!((((get_shortest_path_by_filename mrp).map Prod.fst).contains m) ||
          (([] : List String).contains m) ||
          ((md.map Prod.fst).contains m)) &&
        !(crp.contains (pathOfString m))) = true) → m ∈ t4.2.2 := by
    intro m hm hB
    have ht422 : t4.2.2
        = (uniqueKeepFirst ((E.flatMap Prod.snd).filter (fun fn =>
            (!((((get_shortest_path_by_filename mrp).map
                Prod.fst).contains fn) ||
              (([] : List String).contains fn) ||
              ((md.map Prod.fst).contains fn)) &&
            !(crp.contains (pathOfString fn)))))).filter
          (fun k => (E.flatMap Prod.snd).contains k) := rfl
    rw [ht422, List.mem_filter]
    refine ⟨?_, by simp [hm]⟩
    rw [mem_uniqueKeepFirst, List.mem_filter]
    exact ⟨hm, hB⟩
  have hkey : t8.2.2 = t4.2.2 := by
    have ht822 : t8.2.2
        = (uniqueKeepFirst ((E.flatMap Prod.snd).filter (fun fn =>
            (!((((get_shortest_path_by_filename mrp).map
                Prod.fst).contains fn) ||
              (v6.nonexistentNotes.contains fn) ||
              ((md.map Prod.fst).contains fn)) &&
            !(crp.contains (pathOfString fn)))))).filter
          (fun k => (E.flatMap Prod.snd).contains k) := rfl
    have ht422 : t4.2.2
        = (uniqueKeepFirst ((E.flatMap Prod.snd).filter (fun fn =>
            (!((((get_shortest_path_by_filename mrp).map
                Prod.fst).contains fn) ||
              (([] : List String).contains fn) ||
              ((md.map Prod.fst).contains fn)) &&
            !(crp.contains (pathOfString fn)))))).filter
          (fun k => (E.flatMap Prod.snd).contains k) := rfl
    rw [ht822, ht422, filter_cond_congr_nonex (E.flatMap Prod.snd)
      ((get_shortest_path_by_filename mrp).map Prod.fst)
      (md.map Prod.fst) v6.nonexistentNotes t4.2.2 crp hNnem hNEM2]
  rw [hNN, hv6nn, hBK, hMD, hCV, hM, hNEM, hm84, hnem8, hkey, ← hnem4]
  rw [List.mem_filter, mem_uniqueKeepFirst]
  simp only [Bool.and_eq_true, Bool.not_eq_true']
  constructor
  · rintro ⟨h1, ⟨⟨h2, h3⟩, h4⟩, h5⟩
    refine ⟨h1, ?_, ?_, ?_, ?_⟩
    · simpa using h2
    · simpa using h3
    · simpa using h4
    · simpa using h5
  · rintro ⟨h1, h2, h3, h4, h5⟩
    refine ⟨h1, ⟨⟨?_, ?_⟩, ?_⟩, ?_⟩
    · simpa using h2
    · simpa using h3
    · simpa using h4
    · simpa using h5

end Obsidian
